import Mathlib

/-!
Shallow embedding of the move-native struct runtime
(language/move-native/src/structs.rs) and of the move-to-solana DWARF
debug-info builder (language/solana/move-to-solana/src/stackless/dwarf.rs).

Machine integers are modelled as Nat with explicit bounds (u64 values are
Nats below 2 ^ 64); raw memory is a byte function; pointers are byte
addresses (Nat); panics and other fatal paths are modelled as the none
value of Option results.
-/

/-- Byte-addressed memory: each address holds one byte (taken mod 256 on read). -/
abbrev RtMem : Type := Nat → Nat

/-- Little-endian read of n bytes starting at address p. -/
def readLE (mem : RtMem) (p : Nat) : Nat → Nat
  | 0 => 0
  | n + 1 => mem p % 256 + 256 * readLE mem (p + 1) n

/-- The conversion usize::try_from on a u64-valued Nat: on the 64-bit host,
    usize is 64 bits wide, so the conversion succeeds exactly below 2 ^ 64. -/
def usizeTryFrom (n : Nat) : Option Nat :=
  if n < 2 ^ 64 then some n else none

/-- The conversion isize::try_from on a u64-valued Nat: on the 64-bit host,
    isize is 64 bits wide and signed, so the conversion succeeds exactly
    below 2 ^ 63. -/
def isizeTryFrom (n : Nat) : Option Int :=
  if n < 2 ^ 63 then some (Int.ofNat n) else none

/-- One field record of a struct layout (rt_types.rs StructFieldInfo): the
    field's type descriptor, its byte offset (a u64), and its static name.
    Generic in the descriptor type so the field list can be nested inside
    the MoveType inductive below. -/
structure FieldInfoG (τ : Type) where
  type_ : τ
  offset : Nat
  name : String

/-- Runtime type descriptor (rt_types.rs MoveType with its TypeDesc tag and
    the TypeInfo union payload inlined): scalar kinds, vectors carrying the
    element descriptor, structs carrying the field array and declared size
    (StructTypeInfo), and references. In Lean the descriptor is an inductive
    tree, which makes the finite nesting depth of a type structural. -/
inductive MoveType : Type where
  | Bool
  | U8
  | U16
  | U32
  | U64
  | U128
  | U256
  | Address
  | Signer
  | Vector (elem : MoveType)
  | Struct (fields : List (FieldInfoG MoveType)) (size : Nat)
  | Reference (inner : MoveType)

/-- Field records of the concrete descriptor type. -/
abbrev StructFieldInfo := FieldInfoG MoveType

/-- rt_types.rs MoveUntypedVector: base pointer, capacity and length, as
    stored in the three u64 slots of a vector value. -/
structure MoveUntypedVector where
  ptr : Nat
  capacity : Nat
  length : Nat

/-- One step of the field walk of structs.rs walk_fields: converting the
    field's u64 offset to isize (panicking on overflow, modelled as none)
    and advancing the base pointer by the offset.  The yielded triple is
    (field type descriptor, field pointer, field static name). -/
def walkItem (base : Nat) (f : StructFieldInfo) : Option (MoveType × Nat × String) :=
  match isizeTryFrom f.offset with
  | some _ => some (f.type_, base + f.offset, f.name)
  | none => none

/-- Embedding of structs.rs walk_fields: the eager usize conversion of
    field_array_len (a u64, here the length of the field list), then the
    per-field items of the lazy iterator, each of which can itself panic
    on offset conversion (an item is none exactly when producing it would
    panic). -/
def walk_fields (fields : List StructFieldInfo) (base : Nat) :
    Option (List (Option (MoveType × Nat × String))) :=
  match usizeTryFrom fields.length with
  | some _ => some (fields.map (walkItem base))
  | none => none

/-- Embedding of structs.rs walk_fields_mut, written out independently of
    walk_fields just as in the source: same length conversion, same offset
    conversion and same pointer arithmetic per field; the yielded pointer is
    mutable in the source, which the address-level model does not
    distinguish. -/
def walk_fields_mut (fields : List StructFieldInfo) (base : Nat) :
    Option (List (Option (MoveType × Nat × String))) :=
  match usizeTryFrom fields.length with
  | some _ =>
    some (fields.map (fun f =>
      match isizeTryFrom f.offset with
      | some _ => some (f.type_, base + f.offset, f.name)
      | none => none))
  | none => none

/-- Value view (conv.rs BorrowedTypedMoveValue): scalar variants copy the
    bits read from memory; the vector variant carries the element
    descriptor and the untyped vector handle; the struct variant carries
    the struct layout (field array and size) and the unchanged value
    pointer; the reference variant carries the inner descriptor and the
    pointer. -/
inductive BorrowedTypedMoveValue : Type where
  | Bool (v : Nat)
  | U8 (v : Nat)
  | U16 (v : Nat)
  | U32 (v : Nat)
  | U64 (v : Nat)
  | U128 (v : Nat)
  | U256 (v : Nat)
  | Address (v : Nat)
  | Signer (v : Nat)
  | Vector (elem : MoveType) (h : MoveUntypedVector)
  | Struct (fields : List StructFieldInfo) (size : Nat) (p : Nat)
  | Reference (inner : MoveType) (p : Nat)

abbrev BTMV := BorrowedTypedMoveValue

/-- Modelled from the spec: the Value View Conversion of section 4.2
    (conv.rs borrow_move_value_as_rust_value is not under src).  Scalar
    kinds dereference the pointer as the corresponding fixed-width
    representation and copy the bits into the view; Vector produces the
    borrowed handle over the pointed-to vector storage (base pointer,
    capacity, length read from the three u64 slots) with the element
    descriptor; Struct carries the layout and the original pointer
    unchanged; Reference carries the inner descriptor and the pointer. -/
def borrow_move_value_as_rust_value (mem : RtMem) (t : MoveType) (p : Nat) : BTMV :=
  match t with
  | .Bool => .Bool (readLE mem p 1)
  | .U8 => .U8 (readLE mem p 1)
  | .U16 => .U16 (readLE mem p 2)
  | .U32 => .U32 (readLE mem p 4)
  | .U64 => .U64 (readLE mem p 8)
  | .U128 => .U128 (readLE mem p 16)
  | .U256 => .U256 (readLE mem p 32)
  | .Address => .Address (readLE mem p 32)
  | .Signer => .Signer (readLE mem p 32)
  | .Vector e =>
    .Vector e
      { ptr := readLE mem p 8
        capacity := readLE mem (p + 8) 8
        length := readLE mem (p + 16) 8 }
  | .Struct fs sz => .Struct fs sz p
  | .Reference inner => .Reference inner p

/-- Modelled from the spec: byte size of a value of the given descriptor
    (the element stride of the Generic Borrowed Vector of section 4.3;
    rt_types.rs size computation is not under src).  Struct sizes come
    from the descriptor's declared size. -/
def abiSizeOf : MoveType → Nat
  | .Bool => 1
  | .U8 => 1
  | .U16 => 2
  | .U32 => 4
  | .U64 => 8
  | .U128 => 16
  | .U256 => 32
  | .Address => 32
  | .Signer => 32
  | .Vector _ => 24
  | .Struct _ sz => sz
  | .Reference _ => 8

/-- Variant discriminant of a value view, used to state that mismatched
    view variants are a fatal case. -/
def viewTag : BTMV → Nat
  | .Bool _ => 0
  | .U8 _ => 1
  | .U16 _ => 2
  | .U32 _ => 3
  | .U64 _ => 4
  | .U128 _ => 5
  | .U256 _ => 6
  | .Address _ => 7
  | .Signer _ => 8
  | .Vector _ _ => 9
  | .Struct _ _ _ => 10
  | .Reference _ _ => 11

mutual

/-- Structural weight of a type descriptor, used as a termination measure. -/
def twt : MoveType → Nat
  | .Vector e => 1 + twt e
  | .Struct fs _ => 1 + fwt fs
  | .Reference e => 1 + twt e
  | _ => 1

/-- Structural weight of a field list, used as a termination measure. -/
def fwt : List StructFieldInfo → Nat
  | [] => 0
  | ⟨ty, _, _⟩ :: r => 1 + twt ty + fwt r

end

/-- Termination weight of a view: the structural weight of the descriptor
    data it carries. -/
def viewWt : BTMV → Nat
  | .Vector e _ => 1 + twt e
  | .Struct fs _ _ => 1 + fwt fs
  | _ => 0


theorem fwt_cons (f : StructFieldInfo) (r : List StructFieldInfo) :
    fwt (f :: r) = 1 + twt f.type_ + fwt r := by
  obtain ⟨ty, off, nm⟩ := f
  simp [fwt]

theorem twt_struct (fs : List StructFieldInfo) (sz : Nat) :
    twt (.Struct fs sz) = 1 + fwt fs := by
  simp [twt]

theorem viewWt_conv_le (mem : RtMem) (t : MoveType) (p : Nat) :
    viewWt (borrow_move_value_as_rust_value mem t p) ≤ twt t := by
  cases t <;> simp [viewWt, borrow_move_value_as_rust_value, twt]

mutual

/-- The field-walking part of structs.rs cmp_eq: both walk_fields iterators
    (for s1 and s2) are created over the same StructTypeInfo, so the eager
    usize conversion of field_array_len happens here once, then the zipped
    lockstep walk is consumed by cmpFieldsGo. -/
def cmpFields (fields : List StructFieldInfo) (mem : RtMem) (s1 s2 : Nat) : Option Bool :=
  match usizeTryFrom fields.length with
  | some _ => cmpFieldsGo fields mem s1 s2
  | none => none
termination_by (1 + fwt fields, 0, 0)
decreasing_by
  exact Prod.Lex.left _ _ (by omega)

/-- The for-loop of structs.rs cmp_eq over the zipped field walks.  Both
    iterators are driven by the same field slice, so the zip yields, per
    field record, the item of walkItem at each of the two base pointers;
    the two items share the field's single offset conversion (walkItem
    panics for one base exactly when it does for the other), so it is
    performed once here; each field pair is then converted to value views
    and compared; some false is returned at the first unequal field, none
    at the first panicking step.  The lemma cmpFieldsGo_cons below restates
    this step in terms of the pair of walkItem items. -/
def cmpFieldsGo (fields : List StructFieldInfo) (mem : RtMem) (s1 s2 : Nat) : Option Bool :=
  match fields with
  | [] => some true
  | f :: rest =>
    match isizeTryFrom f.offset with
    | some _ =>
      match cmpViews mem (borrow_move_value_as_rust_value mem f.type_ (s1 + f.offset))
          (borrow_move_value_as_rust_value mem f.type_ (s2 + f.offset)) with
      | some true => cmpFieldsGo rest mem s1 s2
      | some false => some false
      | none => none
    | none => none
termination_by (fwt fields, 0, 0)
decreasing_by
  · refine Prod.Lex.left _ _ ?_
    have h1 := viewWt_conv_le mem f.type_ (s1 + f.offset)
    have h2 := fwt_cons f rest
    omega
  · refine Prod.Lex.left _ _ ?_
    have h2 := fwt_cons f rest
    omega

/-- The match of structs.rs cmp_eq on the pair of value views (lines 52 to
    74): scalar variants compare natively, vector variants delegate to the
    borrowed vector equality, struct variants recurse into the field walk
    of the left view's layout (both views carry the same layout when they
    come from the same descriptor), the reference pairing and every
    mismatched pairing are the unreachable fatal arms, modelled as none. -/
def cmpViews (mem : RtMem) (v1 v2 : BTMV) : Option Bool :=
  match v1, v2 with
  | .Bool a, .Bool b => some (decide (a = b))
  | .U8 a, .U8 b => some (decide (a = b))
  | .U16 a, .U16 b => some (decide (a = b))
  | .U32 a, .U32 b => some (decide (a = b))
  | .U64 a, .U64 b => some (decide (a = b))
  | .U128 a, .U128 b => some (decide (a = b))
  | .U256 a, .U256 b => some (decide (a = b))
  | .Address a, .Address b => some (decide (a = b))
  | .Signer a, .Signer b => some (decide (a = b))
  | .Vector e1 h1, .Vector e2 h2 => vec_cmp_eq e1 e2 mem h1 h2
  | .Struct fs1 _ p1, .Struct _ _ p2 => cmpFields fs1 mem p1 p2
  | .Reference _ _, .Reference _ _ => none
  | _, _ => none
termination_by (viewWt v1, 1, 0)
decreasing_by
  · show Prod.Lex _ _ (1 + twt e1, 0, h1.length + 1) (viewWt (BorrowedTypedMoveValue.Vector e1 h1), 1, 0)
    simp [viewWt]
    exact Prod.Lex.right _ (Prod.Lex.left _ _ (by omega))
  · show Prod.Lex _ _ (1 + fwt fs1, 0, 0) (viewWt (BorrowedTypedMoveValue.Struct fs1 _ p1), 1, 0)
    simp [viewWt]
    exact Prod.Lex.right _ (Prod.Lex.left _ _ (by omega))

/-- Modelled from the spec: the element-wise equality of the Generic
    Borrowed Vector of section 4.3 (vector.rs TypedMoveBorrowedRustVec
    cmp_eq is not under src): true iff the lengths match and every
    corresponding element pair is equal under the Structural Equality
    Engine, recursively. -/
def vec_cmp_eq (e1 e2 : MoveType) (mem : RtMem) (h1 h2 : MoveUntypedVector) : Option Bool :=
  if h1.length = h2.length then
    vecElemsEq e1 e2 mem h1.ptr h2.ptr h1.length
  else
    some false
termination_by (1 + twt e1, 0, h1.length + 1)
decreasing_by
  exact Prod.Lex.right _ (Prod.Lex.right _ (by omega))

/-- Modelled from the spec: the element loop of the borrowed vector
    equality; elements are laid out contiguously with the element stride,
    and each pair is compared through the Value View Conversion exactly as
    struct fields are. -/
def vecElemsEq (e1 e2 : MoveType) (mem : RtMem) (p1 p2 : Nat) (n : Nat) : Option Bool :=
  match n with
  | 0 => some true
  | k + 1 =>
    match cmpViews mem (borrow_move_value_as_rust_value mem e1 p1)
        (borrow_move_value_as_rust_value mem e2 p2) with
    | some true => vecElemsEq e1 e2 mem (p1 + abiSizeOf e1) (p2 + abiSizeOf e2) k
    | r => r
termination_by (1 + twt e1, 0, n)
decreasing_by
  · refine Prod.Lex.left _ _ ?_
    have h1 := viewWt_conv_le mem e1 p1
    omega
  · exact Prod.Lex.right _ (Prod.Lex.right _ (by omega))

end

/-- Embedding of structs.rs cmp_eq: reading the struct_ member of the
    descriptor's TypeInfo union assumes the descriptor is a struct
    descriptor (reading it for any other kind is undefined behavior in the
    source, mapped to the fatal result none here), then both field walks
    are zipped and consumed. -/
def cmp_eq (type_ve : MoveType) (mem : RtMem) (s1 s2 : Nat) : Option Bool :=
  match type_ve with
  | .Struct fields _ => cmpFields fields mem s1 s2
  | _ => none

/-- The vector handle read from the three u64 slots of a vector value. -/
def readVecHandle (mem : RtMem) (p : Nat) : MoveUntypedVector :=
  { ptr := readLE mem p 8
    capacity := readLE mem (p + 8) 8
    length := readLE mem (p + 16) 8 }

/-- One field-pair comparison step of cmp_eq, stated over the pair of
    walkItem items of the zipped walks at this field: both items are
    converted to value views and compared; none when producing either item
    or matching the views panics. -/
def fieldCmp (mem : RtMem) (s1 s2 : Nat) (f : StructFieldInfo) : Option Bool :=
  match walkItem s1 f, walkItem s2 f with
  | some (ty1, p1, _), some (ty2, p2, _) =>
    cmpViews mem (borrow_move_value_as_rust_value mem ty1 p1)
      (borrow_move_value_as_rust_value mem ty2 p2)
  | _, _ => none

theorem cmpFieldsGo_cons (mem : RtMem) (s1 s2 : Nat) (f : StructFieldInfo)
    (rest : List StructFieldInfo) :
    cmpFieldsGo (f :: rest) mem s1 s2 =
      match fieldCmp mem s1 s2 f with
      | some true => cmpFieldsGo rest mem s1 s2
      | some false => some false
      | none => none := by
  cases h : isizeTryFrom f.offset with
  | none => simp [cmpFieldsGo, fieldCmp, walkItem, h]
  | some off => simp [cmpFieldsGo, fieldCmp, walkItem, h]

theorem cmpFieldsGo_append_of_true (mem : RtMem) (s1 s2 : Nat)
    (pre rest : List StructFieldInfo)
    (h : ∀ g ∈ pre, fieldCmp mem s1 s2 g = some true) :
    cmpFieldsGo (pre ++ rest) mem s1 s2 = cmpFieldsGo rest mem s1 s2 := by
  induction pre with
  | nil => simp
  | cons f pre ih =>
    have hf : fieldCmp mem s1 s2 f = some true := h f (by simp)
    rw [List.cons_append, cmpFieldsGo_cons, hf]
    exact ih (fun g hg => h g (by simp [hg]))

theorem cmpFieldsGo_eq_true_iff (mem : RtMem) (s1 s2 : Nat)
    (fields : List StructFieldInfo) :
    cmpFieldsGo fields mem s1 s2 = some true ↔
      ∀ f ∈ fields, fieldCmp mem s1 s2 f = some true := by
  induction fields with
  | nil => simp [cmpFieldsGo]
  | cons f rest ih =>
    rw [cmpFieldsGo_cons]
    cases hf : fieldCmp mem s1 s2 f with
    | none => simp [hf]
    | some b =>
      cases b with
      | true => simp [hf, ih]
      | false => simp [hf]

theorem fieldCmp_reference (mem : RtMem) (s1 s2 : Nat) (f : StructFieldInfo)
    (inner : MoveType) (h : f.type_ = .Reference inner) :
    fieldCmp mem s1 s2 f = none := by
  cases ho : isizeTryFrom f.offset <;>
    simp [fieldCmp, walkItem, ho, h, borrow_move_value_as_rust_value, cmpViews]

theorem fieldCmp_struct (mem : RtMem) (s1 s2 : Nat) (f : StructFieldInfo)
    (fs : List StructFieldInfo) (sz : Nat)
    (ht : f.type_ = .Struct fs sz) (hoff : f.offset < 2 ^ 63) :
    fieldCmp mem s1 s2 f = cmp_eq f.type_ mem (s1 + f.offset) (s2 + f.offset) := by
  have h9 : f.offset < 9223372036854775808 := by omega
  simp [fieldCmp, walkItem, isizeTryFrom, h9, ht,
    borrow_move_value_as_rust_value, cmpViews, cmp_eq]

theorem fieldCmp_vector (mem : RtMem) (s1 s2 : Nat) (f : StructFieldInfo)
    (e : MoveType) (ht : f.type_ = .Vector e) (hoff : f.offset < 2 ^ 63) :
    fieldCmp mem s1 s2 f =
      vec_cmp_eq e e mem (readVecHandle mem (s1 + f.offset))
        (readVecHandle mem (s2 + f.offset)) := by
  have h9 : f.offset < 9223372036854775808 := by omega
  simp [fieldCmp, walkItem, isizeTryFrom, h9, ht,
    borrow_move_value_as_rust_value, cmpViews, readVecHandle]

theorem cmp_eq_struct_eq_go (mem : RtMem) (s1 s2 : Nat)
    (fields : List StructFieldInfo) (sz : Nat) (hlen : fields.length < 2 ^ 64) :
    cmp_eq (.Struct fields sz) mem s1 s2 = cmpFieldsGo fields mem s1 s2 := by
  have h9 : fields.length < 18446744073709551616 := by omega
  simp [cmp_eq, cmpFields, usizeTryFrom, h9]

/-- C1: cmp_eq on a struct descriptor walks both structs' fields in
    lockstep under the same layout: it returns true iff every field pair
    compares equal, it returns false as soon as a field pair compares
    unequal no matter what the later fields hold (they are not examined),
    and each field pair is compared under the field's own descriptor, a
    struct field by a recursive call of cmp_eq and a vector field by the
    borrowed vector's element-wise equality. -/
theorem claim1_cmp_eq_fieldwise (mem : RtMem) (s1 s2 : Nat)
    (fields : List StructFieldInfo) (sz : Nat)
    (hlen : fields.length < 2 ^ 64) :
    (cmp_eq (.Struct fields sz) mem s1 s2 = some true ↔
      ∀ f ∈ fields, fieldCmp mem s1 s2 f = some true) ∧
    (∀ pre f post, fields = pre ++ f :: post →
      (∀ g ∈ pre, fieldCmp mem s1 s2 g = some true) →
      fieldCmp mem s1 s2 f = some false →
      cmp_eq (.Struct fields sz) mem s1 s2 = some false) ∧
    (∀ f : StructFieldInfo, ∀ fs sz', f.type_ = .Struct fs sz' →
      f.offset < 2 ^ 63 →
      fieldCmp mem s1 s2 f = cmp_eq f.type_ mem (s1 + f.offset) (s2 + f.offset)) ∧
    (∀ f : StructFieldInfo, ∀ e, f.type_ = .Vector e → f.offset < 2 ^ 63 →
      fieldCmp mem s1 s2 f =
        vec_cmp_eq e e mem (readVecHandle mem (s1 + f.offset))
          (readVecHandle mem (s2 + f.offset))) := by
  refine ⟨?_, ?_, ?_, ?_⟩
  · rw [cmp_eq_struct_eq_go mem s1 s2 fields sz hlen]
    exact cmpFieldsGo_eq_true_iff mem s1 s2 fields
  · intro pre f post heq hpre hf
    rw [cmp_eq_struct_eq_go mem s1 s2 fields sz hlen, heq,
      cmpFieldsGo_append_of_true mem s1 s2 pre (f :: post) hpre,
      cmpFieldsGo_cons, hf]
  · intro f fs sz' ht hoff
    exact fieldCmp_struct mem s1 s2 f fs sz' ht hoff
  · intro f e ht hoff
    exact fieldCmp_vector mem s1 s2 f e ht hoff

theorem claim1_witness :
    (([⟨.U64, 0, "x"⟩, ⟨.U64, 8, "y"⟩] : List StructFieldInfo).length < 2 ^ 64) ∧
    ((cmp_eq (.Struct [⟨.U64, 0, "x"⟩, ⟨.U64, 8, "y"⟩] 16) (fun _ => 0) 0 16 = some true ↔
      ∀ f ∈ ([⟨.U64, 0, "x"⟩, ⟨.U64, 8, "y"⟩] : List StructFieldInfo),
        fieldCmp (fun _ => 0) 0 16 f = some true) ∧
    (∀ pre f post, ([⟨.U64, 0, "x"⟩, ⟨.U64, 8, "y"⟩] : List StructFieldInfo) = pre ++ f :: post →
      (∀ g ∈ pre, fieldCmp (fun _ => 0) 0 16 g = some true) →
      fieldCmp (fun _ => 0) 0 16 f = some false →
      cmp_eq (.Struct [⟨.U64, 0, "x"⟩, ⟨.U64, 8, "y"⟩] 16) (fun _ => 0) 0 16 = some false) ∧
    (∀ f : StructFieldInfo, ∀ fs sz', f.type_ = .Struct fs sz' →
      f.offset < 2 ^ 63 →
      fieldCmp (fun _ => 0) 0 16 f = cmp_eq f.type_ (fun _ => 0) (0 + f.offset) (16 + f.offset)) ∧
    (∀ f : StructFieldInfo, ∀ e, f.type_ = .Vector e → f.offset < 2 ^ 63 →
      fieldCmp (fun _ => 0) 0 16 f =
        vec_cmp_eq e e (fun _ => 0) (readVecHandle (fun _ => 0) (0 + f.offset))
          (readVecHandle (fun _ => 0) (16 + f.offset)))) :=
  ⟨by decide, claim1_cmp_eq_fieldwise (fun _ => 0) 0 16
      [⟨.U64, 0, "x"⟩, ⟨.U64, 8, "y"⟩] 16 (by decide)⟩

/-- C2: invoking cmp_eq on a struct layout that contains a field of
    Reference type and reaching that field (every earlier field pair
    compares equal) hits the unreachable fatal arm: the result is the
    fatal none, never a boolean. -/
theorem claim2_reference_field_fatal (mem : RtMem) (s1 s2 : Nat)
    (pre post : List StructFieldInfo) (f : StructFieldInfo)
    (inner : MoveType) (sz : Nat)
    (hlen : (pre ++ f :: post).length < 2 ^ 64)
    (hf : f.type_ = .Reference inner)
    (hpre : ∀ g ∈ pre, fieldCmp mem s1 s2 g = some true) :
    cmp_eq (.Struct (pre ++ f :: post) sz) mem s1 s2 = none := by
  rw [cmp_eq_struct_eq_go mem s1 s2 (pre ++ f :: post) sz hlen,
    cmpFieldsGo_append_of_true mem s1 s2 pre (f :: post) hpre,
    cmpFieldsGo_cons, fieldCmp_reference mem s1 s2 f inner hf]

theorem claim2_witness :
    (([] ++ (⟨.Reference .U64, 0, "r"⟩ : StructFieldInfo) :: []).length < 2 ^ 64) ∧
    (FieldInfoG.type_ (⟨.Reference .U64, 0, "r"⟩ : StructFieldInfo) = .Reference .U64) ∧
    (∀ g ∈ ([] : List StructFieldInfo), fieldCmp (fun _ => 0) 0 8 g = some true) ∧
    cmp_eq (.Struct ([] ++ (⟨.Reference .U64, 0, "r"⟩ : StructFieldInfo) :: []) 8)
      (fun _ => 0) 0 8 = none :=
  ⟨by decide, rfl, by simp,
    claim2_reference_field_fatal (fun _ => 0) 0 8 [] [] ⟨.Reference .U64, 0, "r"⟩
      .U64 8 (by decide) rfl (by simp)⟩

/-- C3: the view match of cmp_eq maps every mismatched pairing of value
    view variants to the fatal none; no mismatched pair is ever reported
    as an ordinary boolean inequality. -/
theorem claim3_mismatched_views_fatal (mem : RtMem) (v1 v2 : BTMV)
    (h : viewTag v1 ≠ viewTag v2) :
    cmpViews mem v1 v2 = none := by
  cases v1 <;> cases v2 <;> first
    | exact absurd rfl h
    | simp [cmpViews]

theorem claim3_witness :
    viewTag (.Bool 0) ≠ viewTag (.U8 0) ∧
    cmpViews (fun _ => 0) (.Bool 0) (.U8 0) = none :=
  ⟨by decide, claim3_mismatched_views_fatal (fun _ => 0) (.Bool 0) (.U8 0) (by decide)⟩

/-- C4: for a struct layout with N fields, all of whose offsets are
    representable, and any base pointer, walk_fields yields exactly N
    triples, in declaration order, the i-th being the i-th field's type
    descriptor, the base pointer advanced by the i-th field's declared
    byte offset, and the i-th field's static name. -/
theorem claim4_walk_fields_complete (fields : List StructFieldInfo) (base : Nat)
    (hlen : fields.length < 2 ^ 64)
    (hoff : ∀ f ∈ fields, f.offset < 2 ^ 63) :
    ∃ l, walk_fields fields base = some l ∧ l.length = fields.length ∧
      ∀ i, (hi : i < fields.length) →
        l[i]? = some (some (fields[i].type_, base + fields[i].offset, fields[i].name)) := by
  refine ⟨fields.map (walkItem base), ?_, by simp, ?_⟩
  · have h9 : fields.length < 18446744073709551616 := by omega
    simp [walk_fields, usizeTryFrom, h9]
  · intro i hi
    have hmem : fields[i] ∈ fields := List.getElem_mem hi
    have h9 : fields[i].offset < 9223372036854775808 := by
      have := hoff _ hmem
      omega
    simp [List.getElem?_map, walkItem, isizeTryFrom, h9, List.getElem?_eq_getElem hi]

theorem claim4_witness :
    (([⟨.U64, 0, "x"⟩, ⟨.U64, 8, "y"⟩] : List StructFieldInfo).length < 2 ^ 64) ∧
    (∀ f ∈ ([⟨.U64, 0, "x"⟩, ⟨.U64, 8, "y"⟩] : List StructFieldInfo), f.offset < 2 ^ 63) ∧
    (∃ l, walk_fields [⟨.U64, 0, "x"⟩, ⟨.U64, 8, "y"⟩] 100 = some l ∧
      l.length = ([⟨.U64, 0, "x"⟩, ⟨.U64, 8, "y"⟩] : List StructFieldInfo).length ∧
      ∀ i, (hi : i < ([⟨.U64, 0, "x"⟩, ⟨.U64, 8, "y"⟩] : List StructFieldInfo).length) →
        l[i]? = some (some (([⟨.U64, 0, "x"⟩, ⟨.U64, 8, "y"⟩] : List StructFieldInfo)[i].type_,
          100 + ([⟨.U64, 0, "x"⟩, ⟨.U64, 8, "y"⟩] : List StructFieldInfo)[i].offset,
          ([⟨.U64, 0, "x"⟩, ⟨.U64, 8, "y"⟩] : List StructFieldInfo)[i].name))) :=
  ⟨by decide, by decide,
    claim4_walk_fields_complete [⟨.U64, 0, "x"⟩, ⟨.U64, 8, "y"⟩] 100 (by decide) (by decide)⟩

/-- C5: the field walk converts the field count to usize and each field
    offset to isize, panicking (none) at the point of conversion when the
    value does not fit, and for every representable offset the yielded
    pointer is the exact sum of base pointer and offset, with no
    wrapping. -/
theorem claim5_walk_traps_on_overflow (fields : List StructFieldInfo)
    (base : Nat) (f : StructFieldInfo) :
    (2 ^ 64 ≤ fields.length → walk_fields fields base = none) ∧
    (2 ^ 63 ≤ f.offset → walkItem base f = none) ∧
    (f.offset < 2 ^ 63 → walkItem base f = some (f.type_, base + f.offset, f.name)) := by
  refine ⟨fun h => ?_, fun h => ?_, fun h => ?_⟩
  · have h9 : ¬ fields.length < 18446744073709551616 := by omega
    simp [walk_fields, usizeTryFrom, h9]
  · have h9 : ¬ f.offset < 9223372036854775808 := by omega
    simp [walkItem, isizeTryFrom, h9]
  · have h9 : f.offset < 9223372036854775808 := by omega
    simp [walkItem, isizeTryFrom, h9]

theorem claim5_witness :
    walkItem 5 (⟨.U64, 2 ^ 63, "y"⟩ : StructFieldInfo) = none ∧
    walkItem 5 (⟨.U64, 3, "x"⟩ : StructFieldInfo) = some (.U64, 8, "x") :=
  ⟨(claim5_walk_traps_on_overflow [] 5 ⟨.U64, 2 ^ 63, "y"⟩).2.1 (by decide),
    (claim5_walk_traps_on_overflow [] 5 ⟨.U64, 3, "x"⟩).2.2 (by decide)⟩

/-- C6: for the same struct layout and the same base pointer, walk_fields
    and walk_fields_mut produce the same sequence of (descriptor, address,
    name) triples, the source-level difference being only the mutability
    of the yielded pointer. -/
theorem claim6_walk_mut_equiv (fields : List StructFieldInfo) (base : Nat) :
    walk_fields_mut fields base = walk_fields fields base := rfl

mutual

/-- Nesting depth of a type descriptor: scalar kinds have depth one, and
    each vector, struct or reference layer adds one over its components. -/
def tdepth : MoveType → Nat
  | .Vector e => 1 + tdepth e
  | .Struct fs _ => 1 + fieldsDepth fs
  | .Reference e => 1 + tdepth e
  | _ => 1

/-- Largest nesting depth of the field descriptors of a layout. -/
def fieldsDepth : List StructFieldInfo → Nat
  | [] => 0
  | ⟨ty, _, _⟩ :: r => max (tdepth ty) (fieldsDepth r)

end

/-- Nesting depth still to be descended below a value view. -/
def viewDepth : BTMV → Nat
  | .Vector e _ => 1 + tdepth e
  | .Struct fs _ _ => 1 + fieldsDepth fs
  | _ => 1

theorem tdepth_pos (t : MoveType) : 1 ≤ tdepth t := by
  cases t <;> simp [tdepth]

theorem viewDepth_pos (v : BTMV) : 1 ≤ viewDepth v := by
  cases v <;> simp [viewDepth]

theorem fieldsDepth_cons (f : StructFieldInfo) (r : List StructFieldInfo) :
    fieldsDepth (f :: r) = max (tdepth f.type_) (fieldsDepth r) := by
  obtain ⟨ty, off, nm⟩ := f
  simp [fieldsDepth]

theorem viewDepth_conv_le (mem : RtMem) (t : MoveType) (p : Nat) :
    viewDepth (borrow_move_value_as_rust_value mem t p) ≤ tdepth t := by
  cases t <;> simp [viewDepth, borrow_move_value_as_rust_value, tdepth]

mutual

/-- Fuel-indexed approximant of cmpFields: identical to cmpFields except
    that the recursion is cut off (at none) once the fuel runs out inside
    the view match.  Used to state that the recursion depth of cmp_eq is
    bounded by the nesting depth of the type descriptor. -/
def cmpFieldsF (fuel : Nat) (fields : List StructFieldInfo) (mem : RtMem)
    (s1 s2 : Nat) : Option Bool :=
  match usizeTryFrom fields.length with
  | some _ => cmpFieldsGoF fuel fields mem s1 s2
  | none => none
termination_by (fuel, 1 + fwt fields, 0, 0)
decreasing_by
  exact Prod.Lex.right _ (Prod.Lex.left _ _ (by omega))

/-- Fuel-indexed approximant of cmpFieldsGo. -/
def cmpFieldsGoF (fuel : Nat) (fields : List StructFieldInfo) (mem : RtMem)
    (s1 s2 : Nat) : Option Bool :=
  match fields with
  | [] => some true
  | f :: rest =>
    match isizeTryFrom f.offset with
    | some _ =>
      match cmpViewsF fuel mem (borrow_move_value_as_rust_value mem f.type_ (s1 + f.offset))
          (borrow_move_value_as_rust_value mem f.type_ (s2 + f.offset)) with
      | some true => cmpFieldsGoF fuel rest mem s1 s2
      | some false => some false
      | none => none
    | none => none
termination_by (fuel, fwt fields, 0, 0)
decreasing_by
  · refine Prod.Lex.right _ (Prod.Lex.left _ _ ?_)
    have h1 := viewWt_conv_le mem f.type_ (s1 + f.offset)
    have h2 := fwt_cons f rest
    omega
  · refine Prod.Lex.right _ (Prod.Lex.left _ _ ?_)
    have h2 := fwt_cons f rest
    omega

/-- Fuel-indexed approximant of cmpViews: consuming one unit of fuel per
    descent into the views' payloads. -/
def cmpViewsF (fuel : Nat) (mem : RtMem) (v1 v2 : BTMV) : Option Bool :=
  match fuel with
  | 0 => none
  | fuel + 1 =>
    match v1, v2 with
    | .Bool a, .Bool b => some (decide (a = b))
    | .U8 a, .U8 b => some (decide (a = b))
    | .U16 a, .U16 b => some (decide (a = b))
    | .U32 a, .U32 b => some (decide (a = b))
    | .U64 a, .U64 b => some (decide (a = b))
    | .U128 a, .U128 b => some (decide (a = b))
    | .U256 a, .U256 b => some (decide (a = b))
    | .Address a, .Address b => some (decide (a = b))
    | .Signer a, .Signer b => some (decide (a = b))
    | .Vector e1 h1, .Vector e2 h2 => vec_cmp_eqF fuel e1 e2 mem h1 h2
    | .Struct fs1 _ p1, .Struct _ _ p2 => cmpFieldsF fuel fs1 mem p1 p2
    | .Reference _ _, .Reference _ _ => none
    | _, _ => none
termination_by (fuel, viewWt v1, 1, 0)
decreasing_by
  · exact Prod.Lex.left _ _ (by omega)
  · exact Prod.Lex.left _ _ (by omega)

/-- Fuel-indexed approximant of vec_cmp_eq. -/
def vec_cmp_eqF (fuel : Nat) (e1 e2 : MoveType) (mem : RtMem)
    (h1 h2 : MoveUntypedVector) : Option Bool :=
  if h1.length = h2.length then
    vecElemsEqF fuel e1 e2 mem h1.ptr h2.ptr h1.length
  else
    some false
termination_by (fuel, 1 + twt e1, 0, h1.length + 1)
decreasing_by
  exact Prod.Lex.right _ (Prod.Lex.right _ (Prod.Lex.right _ (by omega)))

/-- Fuel-indexed approximant of vecElemsEq. -/
def vecElemsEqF (fuel : Nat) (e1 e2 : MoveType) (mem : RtMem)
    (p1 p2 : Nat) (n : Nat) : Option Bool :=
  match n with
  | 0 => some true
  | k + 1 =>
    match cmpViewsF fuel mem (borrow_move_value_as_rust_value mem e1 p1)
        (borrow_move_value_as_rust_value mem e2 p2) with
    | some true => vecElemsEqF fuel e1 e2 mem (p1 + abiSizeOf e1) (p2 + abiSizeOf e2) k
    | r => r
termination_by (fuel, 1 + twt e1, 0, n)
decreasing_by
  · refine Prod.Lex.right _ (Prod.Lex.left _ _ ?_)
    have h1 := viewWt_conv_le mem e1 p1
    omega
  · exact Prod.Lex.right _ (Prod.Lex.right _ (Prod.Lex.right _ (by omega)))

end

/-- Fuel-indexed approximant of cmp_eq. -/
def cmp_eqF (fuel : Nat) (type_ve : MoveType) (mem : RtMem) (s1 s2 : Nat) : Option Bool :=
  match type_ve with
  | .Struct fields _ => cmpFieldsF fuel fields mem s1 s2
  | _ => none

theorem cmp_bridge (mem : RtMem) : ∀ fuel : Nat,
    (∀ v1 v2, viewDepth v1 ≤ fuel → cmpViewsF fuel mem v1 v2 = cmpViews mem v1 v2) ∧
    (∀ fields, fieldsDepth fields ≤ fuel → ∀ s1 s2 : Nat,
      cmpFieldsGoF fuel fields mem s1 s2 = cmpFieldsGo fields mem s1 s2) ∧
    (∀ fields, fieldsDepth fields ≤ fuel → ∀ s1 s2 : Nat,
      cmpFieldsF fuel fields mem s1 s2 = cmpFields fields mem s1 s2) ∧
    (∀ e1 e2 : MoveType, tdepth e1 ≤ fuel → ∀ p1 p2 n : Nat,
      vecElemsEqF fuel e1 e2 mem p1 p2 n = vecElemsEq e1 e2 mem p1 p2 n) ∧
    (∀ e1 e2 : MoveType, tdepth e1 ≤ fuel → ∀ h1 h2 : MoveUntypedVector,
      vec_cmp_eqF fuel e1 e2 mem h1 h2 = vec_cmp_eq e1 e2 mem h1 h2) := by
  intro fuel
  induction fuel with
  | zero =>
    have hviews : ∀ v1 v2 : BTMV, viewDepth v1 ≤ 0 →
        cmpViewsF 0 mem v1 v2 = cmpViews mem v1 v2 := by
      intro v1 v2 h
      have := viewDepth_pos v1
      omega
    have hgo : ∀ fields, fieldsDepth fields ≤ 0 → ∀ s1 s2 : Nat,
        cmpFieldsGoF 0 fields mem s1 s2 = cmpFieldsGo fields mem s1 s2 := by
      intro fields h s1 s2
      cases fields with
      | nil => simp [cmpFieldsGoF, cmpFieldsGo]
      | cons f rest =>
        rw [fieldsDepth_cons] at h
        have := tdepth_pos f.type_
        omega
    refine ⟨hviews, hgo, ?_, ?_, ?_⟩
    · intro fields h s1 s2
      cases hu : usizeTryFrom fields.length <;>
        simp [cmpFieldsF, cmpFields, hu, hgo fields h s1 s2]
    · intro e1 e2 h
      have := tdepth_pos e1
      omega
    · intro e1 e2 h
      have := tdepth_pos e1
      omega
  | succ n ih =>
    obtain ⟨ihv, ihgo, ihf, ihel, ihvec⟩ := ih
    have hviews : ∀ v1 v2, viewDepth v1 ≤ n + 1 →
        cmpViewsF (n + 1) mem v1 v2 = cmpViews mem v1 v2 := by
      intro v1 v2 h
      cases v1 <;> cases v2 <;> simp only [cmpViewsF, cmpViews] <;> first
        | rfl
        | exact ihvec _ _ (by simp [viewDepth] at h; omega) _ _
        | exact ihf _ (by simp [viewDepth] at h; omega) _ _
    have hgo : ∀ fields, fieldsDepth fields ≤ n + 1 → ∀ s1 s2 : Nat,
        cmpFieldsGoF (n + 1) fields mem s1 s2 = cmpFieldsGo fields mem s1 s2 := by
      intro fields
      induction fields with
      | nil => intro _ s1 s2; simp [cmpFieldsGoF, cmpFieldsGo]
      | cons f rest ihrest =>
        intro h s1 s2
        rw [fieldsDepth_cons] at h
        cases ho : isizeTryFrom f.offset with
        | none => simp [cmpFieldsGoF, cmpFieldsGo, ho]
        | some o =>
          have hd : tdepth f.type_ ≤ n + 1 := le_trans (le_max_left _ _) h
          have hv := hviews
            (borrow_move_value_as_rust_value mem f.type_ (s1 + f.offset))
            (borrow_move_value_as_rust_value mem f.type_ (s2 + f.offset))
            (le_trans (viewDepth_conv_le mem f.type_ (s1 + f.offset)) hd)
          have hr := ihrest (le_trans (le_max_right _ _) h)
          simp [cmpFieldsGoF, cmpFieldsGo, ho, hv, hr]
    have hels : ∀ e1 e2 : MoveType, tdepth e1 ≤ n + 1 → ∀ p1 p2 k : Nat,
        vecElemsEqF (n + 1) e1 e2 mem p1 p2 k = vecElemsEq e1 e2 mem p1 p2 k := by
      intro e1 e2 h p1 p2 k
      induction k generalizing p1 p2 with
      | zero => simp [vecElemsEqF, vecElemsEq]
      | succ k ihk =>
        have hv := hviews
          (borrow_move_value_as_rust_value mem e1 p1)
          (borrow_move_value_as_rust_value mem e2 p2)
          (le_trans (viewDepth_conv_le mem e1 p1) h)
        simp [vecElemsEqF, vecElemsEq, hv, ihk]
    refine ⟨hviews, hgo, ?_, hels, ?_⟩
    · intro fields h s1 s2
      cases hu : usizeTryFrom fields.length <;>
        simp [cmpFieldsF, cmpFields, hu, hgo fields h s1 s2]
    · intro e1 e2 h h1 h2
      by_cases hl : h1.length = h2.length <;>
        simp [vec_cmp_eqF, vec_cmp_eq, hl, hels e1 e2 h]

theorem decide_eq_comm (a b : Nat) : decide (a = b) = decide (b = a) := by
  by_cases h : a = b
  · subst h; rfl
  · have h' : ¬ b = a := fun hh => h hh.symm
    simp [h, h']

theorem goF_sym_of (mem : RtMem) (fuel : Nat)
    (hv : ∀ t : MoveType, ∀ p q : Nat,
      cmpViewsF fuel mem (borrow_move_value_as_rust_value mem t p)
          (borrow_move_value_as_rust_value mem t q) =
        cmpViewsF fuel mem (borrow_move_value_as_rust_value mem t q)
          (borrow_move_value_as_rust_value mem t p)) :
    ∀ fields : List StructFieldInfo, ∀ s1 s2 : Nat,
      cmpFieldsGoF fuel fields mem s1 s2 = cmpFieldsGoF fuel fields mem s2 s1 := by
  intro fields
  induction fields with
  | nil => intro s1 s2; simp [cmpFieldsGoF]
  | cons f rest ihrest =>
    intro s1 s2
    cases ho : isizeTryFrom f.offset with
    | none => simp [cmpFieldsGoF, ho]
    | some o =>
      simp only [cmpFieldsGoF, ho]
      rw [hv f.type_ (s1 + f.offset) (s2 + f.offset)]
      cases hc : cmpViewsF fuel mem
          (borrow_move_value_as_rust_value mem f.type_ (s2 + f.offset))
          (borrow_move_value_as_rust_value mem f.type_ (s1 + f.offset)) with
      | none => simp [hc]
      | some b => cases b <;> simp [hc, ihrest]

theorem fieldsF_sym_of (mem : RtMem) (fuel : Nat)
    (hv : ∀ t : MoveType, ∀ p q : Nat,
      cmpViewsF fuel mem (borrow_move_value_as_rust_value mem t p)
          (borrow_move_value_as_rust_value mem t q) =
        cmpViewsF fuel mem (borrow_move_value_as_rust_value mem t q)
          (borrow_move_value_as_rust_value mem t p)) :
    ∀ fields : List StructFieldInfo, ∀ s1 s2 : Nat,
      cmpFieldsF fuel fields mem s1 s2 = cmpFieldsF fuel fields mem s2 s1 := by
  intro fields s1 s2
  cases hu : usizeTryFrom fields.length <;>
    simp [cmpFieldsF, hu, goF_sym_of mem fuel hv fields s1 s2]

theorem elsF_sym_of (mem : RtMem) (fuel : Nat)
    (hv : ∀ t : MoveType, ∀ p q : Nat,
      cmpViewsF fuel mem (borrow_move_value_as_rust_value mem t p)
          (borrow_move_value_as_rust_value mem t q) =
        cmpViewsF fuel mem (borrow_move_value_as_rust_value mem t q)
          (borrow_move_value_as_rust_value mem t p)) :
    ∀ e : MoveType, ∀ p q k : Nat,
      vecElemsEqF fuel e e mem p q k = vecElemsEqF fuel e e mem q p k := by
  intro e p q k
  induction k generalizing p q with
  | zero => simp [vecElemsEqF]
  | succ k ihk =>
    simp only [vecElemsEqF]
    rw [hv e p q]
    cases hc : cmpViewsF fuel mem (borrow_move_value_as_rust_value mem e q)
        (borrow_move_value_as_rust_value mem e p) with
    | none => simp [hc]
    | some b => cases b <;> simp [hc, ihk]

theorem vecF_sym_of (mem : RtMem) (fuel : Nat)
    (hv : ∀ t : MoveType, ∀ p q : Nat,
      cmpViewsF fuel mem (borrow_move_value_as_rust_value mem t p)
          (borrow_move_value_as_rust_value mem t q) =
        cmpViewsF fuel mem (borrow_move_value_as_rust_value mem t q)
          (borrow_move_value_as_rust_value mem t p)) :
    ∀ e : MoveType, ∀ h1 h2 : MoveUntypedVector,
      vec_cmp_eqF fuel e e mem h1 h2 = vec_cmp_eqF fuel e e mem h2 h1 := by
  intro e h1 h2
  by_cases hl : h1.length = h2.length
  · have hl' : h2.length = h1.length := hl.symm
    simp only [vec_cmp_eqF, if_pos hl, if_pos hl', hl]
    exact elsF_sym_of mem fuel hv e h1.ptr h2.ptr h2.length
  · have hl' : ¬ h2.length = h1.length := fun hh => hl hh.symm
    simp [vec_cmp_eqF, hl, hl']

theorem viewsF_sym (mem : RtMem) : ∀ fuel : Nat, ∀ t : MoveType, ∀ p q : Nat,
    cmpViewsF fuel mem (borrow_move_value_as_rust_value mem t p)
        (borrow_move_value_as_rust_value mem t q) =
      cmpViewsF fuel mem (borrow_move_value_as_rust_value mem t q)
        (borrow_move_value_as_rust_value mem t p) := by
  intro fuel
  induction fuel with
  | zero => intro t p q; simp [cmpViewsF]
  | succ n ih =>
    intro t p q
    cases t <;> simp only [borrow_move_value_as_rust_value, cmpViewsF] <;> first
      | exact congrArg some (decide_eq_comm _ _)
      | exact vecF_sym_of mem n ih _ _ _
      | exact fieldsF_sym_of mem n ih _ _ _

theorem cmpFields_sym (mem : RtMem) (fields : List StructFieldInfo) (s1 s2 : Nat) :
    cmpFields fields mem s1 s2 = cmpFields fields mem s2 s1 := by
  have hb := (cmp_bridge mem (fieldsDepth fields)).2.2.1 fields (le_refl _)
  calc cmpFields fields mem s1 s2
      = cmpFieldsF (fieldsDepth fields) fields mem s1 s2 := (hb s1 s2).symm
    _ = cmpFieldsF (fieldsDepth fields) fields mem s2 s1 :=
        fieldsF_sym_of mem (fieldsDepth fields) (viewsF_sym mem (fieldsDepth fields)) fields s1 s2
    _ = cmpFields fields mem s2 s1 := hb s2 s1

/-- C7: for every struct type descriptor and every two values of that type
    on which no fatal internal-invariant branch is reached, cmp_eq is
    symmetric in its two value pointers, across all scalar, vector and
    struct compositions. -/
theorem claim7_cmp_eq_symm (t : MoveType) (mem : RtMem) (a b : Nat)
    (h : cmp_eq t mem a b ≠ none) :
    cmp_eq t mem a b = cmp_eq t mem b a := by
  cases t <;> simp only [cmp_eq]
  exact cmpFields_sym mem _ a b

theorem claim7_witness :
    (cmp_eq (.Struct [] 0) (fun _ => 0) 3 5 ≠ none) ∧
    cmp_eq (.Struct [] 0) (fun _ => 0) 3 5 = cmp_eq (.Struct [] 0) (fun _ => 0) 5 3 :=
  ⟨by simp [cmp_eq, cmpFields, usizeTryFrom, cmpFieldsGo],
    claim7_cmp_eq_symm (.Struct [] 0) (fun _ => 0) 3 5
      (by simp [cmp_eq, cmpFields, usizeTryFrom, cmpFieldsGo])⟩

/-- C8: the recursion of cmp_eq is well founded with a bound given by the
    nesting depth of the type descriptor: the fuel-indexed approximant
    cmp_eqF, which cuts the recursion off when its fuel is exhausted,
    already agrees with the total function cmp_eq whenever the fuel is at
    least the descriptor's nesting depth, for every pair of values. -/
theorem claim8_cmp_eq_depth_bounded (t : MoveType) (mem : RtMem) (s1 s2 fuel : Nat)
    (h : tdepth t ≤ fuel) :
    cmp_eqF fuel t mem s1 s2 = cmp_eq t mem s1 s2 := by
  cases t <;> simp only [cmp_eqF, cmp_eq]
  rename_i fields sz
  refine (cmp_bridge mem fuel).2.2.1 fields ?_ s1 s2
  simp only [tdepth] at h
  omega

theorem claim8_witness :
    tdepth (.Struct [⟨.U64, 0, "x"⟩] 8) ≤ 2 ∧
    cmp_eqF 2 (.Struct [⟨.U64, 0, "x"⟩] 8) (fun _ => 0) 0 0 =
      cmp_eq (.Struct [⟨.U64, 0, "x"⟩] 8) (fun _ => 0) 0 0 :=
  ⟨by simp [tdepth, fieldsDepth],
    claim8_cmp_eq_depth_bounded (.Struct [⟨.U64, 0, "x"⟩] 8) (fun _ => 0) 0 0 2
      (by simp [tdepth, fieldsDepth])⟩

/-- Opaque LLVM handles of dwarf.rs, modelled as plain addresses. -/
abbrev LLVMMetadataRef := Nat

abbrev LLVMModuleRef := Nat

abbrev LLVMDIBuilderRef := Nat

/-- move_model::model::StructId, an opaque identifier. -/
abbrev StructId := Nat

/-- move_model::ty::PrimitiveType as matched by DIBuilder::get_type. -/
inductive MMPrimitiveType : Type where
  | Bool
  | U8
  | U16
  | U32
  | U64
  | U128
  | U256
  | Address
  | Signer
  | Num
  | Range

/-- move_model::ty::Type, the Move model type matched by
    DIBuilder::get_type: the primitive types, vectors, structs carrying a
    module id, a struct id and the instantiation, type parameters,
    references and the remaining shapes that all fall into the default
    arm. -/
inductive MMType : Type where
  | Primitive (p : MMPrimitiveType)
  | Tuple (ts : List MMType)
  | Vector (t : MMType)
  | Struct (mid : Nat) (sid : StructId) (inst : List MMType)
  | TypeParameter (n : Nat)
  | Reference (isMut : Bool) (t : MMType)
  | Fun (arg : MMType) (res : MMType)
  | Error
  | Var (n : Nat)

/-- dwarf.rs DIBuilderCore: the stored LLVM handles, the source path, the
    prebuilt basic type metadata and the struct-type database (the RefCell
    HashMap modelled as a function to Option). -/
structure DIBuilderCore where
  module_di : LLVMModuleRef
  builder_ref : LLVMDIBuilderRef
  builder_file : LLVMMetadataRef
  compiled_unit : LLVMMetadataRef
  compiled_module : LLVMMetadataRef
  module_ref : LLVMModuleRef
  module_source : String
  type_unspecified : LLVMMetadataRef
  type_u8 : LLVMMetadataRef
  type_u16 : LLVMMetadataRef
  type_u32 : LLVMMetadataRef
  type_u64 : LLVMMetadataRef
  type_u128 : LLVMMetadataRef
  type_u256 : LLVMMetadataRef
  type_bool : LLVMMetadataRef
  type_address : LLVMMetadataRef
  type_struct_db : StructId → Option LLVMMetadataRef

/-- dwarf.rs DIBuilderCore::add_type_struct: insert (overwriting) into the
    struct-type database. -/
def DIBuilderCore.add_type_struct (core : DIBuilderCore) (struct_id : StructId)
    (re : LLVMMetadataRef) : DIBuilderCore :=
  { core with
    type_struct_db := fun k => if k = struct_id then some re else core.type_struct_db k }

/-- dwarf.rs DIBuilderCore::get_type_struct: the stored metadata for the
    id, or type_unspecified when the database holds none for it. -/
def DIBuilderCore.get_type_struct (core : DIBuilderCore) (struct_id : StructId) :
    LLVMMetadataRef :=
  match core.type_struct_db struct_id with
  | some res => res
  | none => core.type_unspecified

/-- dwarf.rs DIBuilder: a newtype over the optional core state. -/
structure DIBuilder where
  core_opt : Option DIBuilderCore

/-- Embedding of dwarf.rs DIBuilder::new restricted to its observable
    state: when debug is false no core state is built at all; when debug
    is true the core constructed through the LLVM FFI calls (external to
    this embedding, hence taken as a parameter) is stored. -/
def DIBuilder.new (built_core : DIBuilderCore) (debug : Bool) : DIBuilder :=
  if debug then ⟨some built_core⟩ else ⟨none⟩

/-- dwarf.rs DIBuilder::module_di. -/
def DIBuilder.module_di (b : DIBuilder) : Option LLVMModuleRef :=
  b.core_opt.map (fun x => x.module_di)

/-- dwarf.rs DIBuilder::builder_ref. -/
def DIBuilder.builder_ref (b : DIBuilder) : Option LLVMDIBuilderRef :=
  b.core_opt.map (fun x => x.builder_ref)

/-- dwarf.rs DIBuilder::builder_file. -/
def DIBuilder.builder_file (b : DIBuilder) : Option LLVMMetadataRef :=
  b.core_opt.map (fun x => x.builder_file)

/-- dwarf.rs DIBuilder::compiled_unit. -/
def DIBuilder.compiled_unit (b : DIBuilder) : Option LLVMMetadataRef :=
  b.core_opt.map (fun x => x.compiled_unit)

/-- dwarf.rs DIBuilder::compiled_module. -/
def DIBuilder.compiled_module (b : DIBuilder) : Option LLVMMetadataRef :=
  b.core_opt.map (fun x => x.compiled_module)

/-- dwarf.rs DIBuilder::module_ref. -/
def DIBuilder.module_ref (b : DIBuilder) : Option LLVMModuleRef :=
  b.core_opt.map (fun x => x.module_ref)

/-- dwarf.rs DIBuilder::module_source. -/
def DIBuilder.module_source (b : DIBuilder) : Option String :=
  b.core_opt.map (fun x => x.module_source)

/-- dwarf.rs DIBuilder::core: unwraps the optional core state; the none
    result models the unwrap panic on a builder constructed with
    debug disabled. -/
def DIBuilder.core (b : DIBuilder) : Option DIBuilderCore :=
  b.core_opt

/-- dwarf.rs DIBuilder::get_type: runs on the unwrapped core (none models
    the panic of core() on a coreless builder); the eight matched
    primitive types map to their prebuilt basic types, a struct type maps
    through get_type_struct on its StructId, and every other Move model
    type falls to type_unspecified. -/
def DIBuilder.get_type (b : DIBuilder) (mty : MMType) : Option LLVMMetadataRef :=
  match DIBuilder.core b with
  | none => none
  | some core =>
    some (match mty with
      | .Primitive .Bool => core.type_bool
      | .Primitive .U8 => core.type_u8
      | .Primitive .U16 => core.type_u16
      | .Primitive .U32 => core.type_u32
      | .Primitive .U64 => core.type_u64
      | .Primitive .U128 => core.type_u128
      | .Primitive .U256 => core.type_u256
      | .Primitive .Address => core.type_address
      | .Struct _mod_id struct_id _v => core.get_type_struct struct_id
      | _ => core.type_unspecified)

/-- Observable LLVM side effects of the printing and finalizing entry
    points of dwarf.rs, recorded as a trace. -/
inductive LLVMEffect : Type where
  | printModuleToFile (module_di : LLVMModuleRef) (file_path : String)
  | diBuilderFinalize (builder_ref : LLVMDIBuilderRef)

/-- dwarf.rs DIBuilder::print_module_to_file: prints the debug-info module
    when core state exists, and performs no action otherwise. -/
def DIBuilder.print_module_to_file (b : DIBuilder) (file_path : String) : List LLVMEffect :=
  match b.core_opt with
  | some x => [.printModuleToFile x.module_di file_path]
  | none => []

/-- dwarf.rs DIBuilder::finalize: calls LLVMDIBuilderFinalize when core
    state exists, and performs no action otherwise. -/
def DIBuilder.finalize (b : DIBuilder) : List LLVMEffect :=
  match b.core_opt with
  | some x => [.diBuilderFinalize x.builder_ref]
  | none => []

/-- C9: on a builder holding core state, get_type maps every Move model
    type to a metadata reference without failing: each matched primitive
    maps to its fixed basic type; a struct type maps to the metadata
    stored for its StructId through add_type_struct, and to
    type_unspecified when no metadata was ever stored for that id; and
    vectors, the signer primitive, references and type parameters all map
    to type_unspecified. -/
theorem claim9_get_type_total (core : DIBuilderCore) :
    (∀ t : MMType, (DIBuilder.get_type ⟨some core⟩ t).isSome = true) ∧
    DIBuilder.get_type ⟨some core⟩ (.Primitive .Bool) = some core.type_bool ∧
    DIBuilder.get_type ⟨some core⟩ (.Primitive .U8) = some core.type_u8 ∧
    DIBuilder.get_type ⟨some core⟩ (.Primitive .U16) = some core.type_u16 ∧
    DIBuilder.get_type ⟨some core⟩ (.Primitive .U32) = some core.type_u32 ∧
    DIBuilder.get_type ⟨some core⟩ (.Primitive .U64) = some core.type_u64 ∧
    DIBuilder.get_type ⟨some core⟩ (.Primitive .U128) = some core.type_u128 ∧
    DIBuilder.get_type ⟨some core⟩ (.Primitive .U256) = some core.type_u256 ∧
    DIBuilder.get_type ⟨some core⟩ (.Primitive .Address) = some core.type_address ∧
    (∀ mid sid inst re,
      DIBuilder.get_type ⟨some (core.add_type_struct sid re)⟩ (.Struct mid sid inst) =
        some re) ∧
    (∀ mid sid inst, core.type_struct_db sid = none →
      DIBuilder.get_type ⟨some core⟩ (.Struct mid sid inst) = some core.type_unspecified) ∧
    (∀ t, DIBuilder.get_type ⟨some core⟩ (.Vector t) = some core.type_unspecified) ∧
    DIBuilder.get_type ⟨some core⟩ (.Primitive .Signer) = some core.type_unspecified ∧
    (∀ isMut t, DIBuilder.get_type ⟨some core⟩ (.Reference isMut t) =
      some core.type_unspecified) ∧
    (∀ n, DIBuilder.get_type ⟨some core⟩ (.TypeParameter n) =
      some core.type_unspecified) := by
  refine ⟨fun t => rfl, rfl, rfl, rfl, rfl, rfl, rfl, rfl, rfl, ?_, ?_, fun t => rfl,
    rfl, fun isMut t => rfl, fun n => rfl⟩
  · intro mid sid inst re
    simp [DIBuilder.get_type, DIBuilder.core, DIBuilderCore.get_type_struct,
      DIBuilderCore.add_type_struct]
  · intro mid sid inst h
    simp [DIBuilder.get_type, DIBuilder.core, DIBuilderCore.get_type_struct, h]

/-- C10: a builder constructed with debug disabled holds no core state:
    every accessor returns None, printing and finalizing perform no LLVM
    action, and only core() and the operations running on it, such as
    get_type, fail (none models their panic). -/
theorem claim10_no_debug_builder_inert (built_core : DIBuilderCore)
    (file_path : String) (t : MMType) :
    DIBuilder.new built_core false = ⟨none⟩ ∧
    DIBuilder.module_di (DIBuilder.new built_core false) = none ∧
    DIBuilder.builder_ref (DIBuilder.new built_core false) = none ∧
    DIBuilder.builder_file (DIBuilder.new built_core false) = none ∧
    DIBuilder.compiled_unit (DIBuilder.new built_core false) = none ∧
    DIBuilder.compiled_module (DIBuilder.new built_core false) = none ∧
    DIBuilder.module_ref (DIBuilder.new built_core false) = none ∧
    DIBuilder.module_source (DIBuilder.new built_core false) = none ∧
    DIBuilder.print_module_to_file (DIBuilder.new built_core false) file_path = [] ∧
    DIBuilder.finalize (DIBuilder.new built_core false) = [] ∧
    DIBuilder.core (DIBuilder.new built_core false) = none ∧
    DIBuilder.get_type (DIBuilder.new built_core false) t = none :=
  ⟨rfl, rfl, rfl, rfl, rfl, rfl, rfl, rfl, rfl, rfl, rfl, rfl⟩

theorem claim9_witness :
    DIBuilder.get_type
      ⟨some (⟨0, 1, 2, 3, 4, 5, "m", 9, 10, 11, 12, 13, 14, 15, 16, 17,
        fun _ => none⟩ : DIBuilderCore)⟩ (.Struct 0 42 []) = some 9 :=
  (claim9_get_type_total
    ⟨0, 1, 2, 3, 4, 5, "m", 9, 10, 11, 12, 13, 14, 15, 16, 17,
      fun _ => none⟩).2.2.2.2.2.2.2.2.2.2.1 0 42 [] rfl
